import Mathlib

/-!
Verification development for the `rip_hyphen` utility-billing extractor
(`src/main.rs`).  The browser-driving effects are factored out: every DOM
read becomes an explicit `Option String` input, every driver action becomes
an explicit outcome parameter, and the pure parsing / reconciliation logic
is translated function-by-function from the Rust source.

Modelling conventions:
* Rust `f64` values are modelled as exact rationals (`Rat`); the program
  only parses and stores them, and no verified property depends on
  floating-point rounding, infinities or NaN.
* `chrono::NaiveDate` is modelled as a year/month/day triple; its
  `parse_from_str` with the fixed format string used by the source
  (`"%Y.%m.%d"`) is embedded in `parseYMD` below.
* A Rust panic (index out of bounds, arithmetic underflow) is modelled as
  `Option.none` in the function's result.
-/

deriving instance DecidableEq for Except

namespace RipHyphen

/-- Calendar date; model of `chrono::NaiveDate` (year, month, day). -/
structure NaiveDate where
  year : Int
  month : Nat
  day : Nat
  deriving DecidableEq

/-- `struct KepcoData` from `src/main.rs`.  `usage` is `f64` in the source,
modelled as an exact rational (see the module docstring). -/
structure KepcoData where
  claim_date : Option NaiveDate
  start_date : Option NaiveDate
  end_date : Option NaiveDate
  usage : Rat
  amount : Int
  paid : Int
  unpaid : Int
  payment_method : Option String
  payment_date : Option NaiveDate
  deriving DecidableEq

/-- Byte length of a string, as Rust `str::len` (UTF-8 byte count). -/
def utf8Len (s : String) : Nat := s.data.foldl (fun n c => n + c.utf8Size) 0

/-- Numeric value of an ASCII digit character. -/
def digitVal (c : Char) : Nat := c.toNat - 48

/-- Value of a list of ASCII digit characters read in base 10. -/
def natFromDigits (ds : List Char) : Nat := ds.foldl (fun n c => n * 10 + digitVal c) 0

/-- Helper for `scanNumber`: consume up to `w` further leading digits,
accumulating the value. -/
def scanNumAux : Nat → Nat → List Char → Nat × List Char
  | 0, acc, cs => (acc, cs)
  | _ + 1, acc, [] => (acc, [])
  | w + 1, acc, c :: cs =>
    if c.isDigit then scanNumAux w (acc * 10 + digitVal c) cs else (acc, c :: cs)

/-- chrono's `scan::number(s, 1, maxW)`: consume between 1 and `maxW`
leading ASCII digits (greedily) and return their value and the rest of the
input; `none` when the input does not start with a digit. -/
def scanNumber (maxW : Nat) (cs : List Char) : Option (Nat × List Char) :=
  match cs with
  | c :: rest => if c.isDigit then some (scanNumAux (maxW - 1) (digitVal c) rest) else none
  | [] => none

/-- Proleptic-Gregorian leap year, as chrono. -/
def isLeapYear (y : Int) : Bool := y % 4 == 0 && (y % 100 != 0 || y % 400 == 0)

/-- Number of days in a month, as chrono. -/
def daysInMonth (y : Int) (m : Nat) : Nat :=
  if m = 2 then (if isLeapYear y then 29 else 28)
  else if m = 4 ∨ m = 6 ∨ m = 9 ∨ m = 11 then 30
  else 31

/-- `chrono::NaiveDate::from_ymd_opt`: `none` when the components do not
name a real calendar date (the year bounds are chrono's representable
range; no input in this development approaches them). -/
def fromYMD (y : Int) (m d : Nat) : Option NaiveDate :=
  if -262143 ≤ y ∧ y ≤ 262142 ∧ 1 ≤ m ∧ m ≤ 12 ∧ 1 ≤ d ∧ d ≤ daysInMonth y m
  then some ⟨y, m, d⟩ else none

/-- `chrono::NaiveDate::parse_from_str(s, "%Y.%m.%d")`.  Faithful to chrono
on the inputs this program can produce: leading whitespace is skipped
before each numeric item, `%Y` takes 1-4 digits, `%m` and `%d` take 1-2
digits (greedy), the two separating dots are matched literally, the whole
input must be consumed, and the resolved components must form a real date.
chrono's explicitly signed year prefix (a leading plus or minus sign, with
unbounded digits) is not modelled: no caller in the source ever passes a
signed year. -/
def parseYMD (s : String) : Except String NaiveDate :=
  let cs0 := s.data.dropWhile Char.isWhitespace
  match scanNumber 4 cs0 with
  | none => .error "Failed to parse date"
  | some (y, cs1) =>
    match cs1 with
    | '.' :: cs2 =>
      match scanNumber 2 (cs2.dropWhile Char.isWhitespace) with
      | none => .error "Failed to parse date"
      | some (m, cs3) =>
        match cs3 with
        | '.' :: cs4 =>
          match scanNumber 2 (cs4.dropWhile Char.isWhitespace) with
          | none => .error "Failed to parse date"
          | some (d, cs5) =>
            if cs5.isEmpty then
              match fromYMD (y : Int) m d with
              | some date => .ok date
              | none => .error "Failed to parse date"
            else .error "Failed to parse date"
        | _ => .error "Failed to parse date"
    | _ => .error "Failed to parse date"

/-- `fn parse_date` (src/main.rs lines 231-239): a 7-byte token has
`".01"` appended (day defaults to the first of the month), then the result
is parsed with format `"%Y.%m.%d"`. -/
def parse_date (date_str : String) : Except String NaiveDate :=
  let date_with_day := if utf8Len date_str = 7 then date_str ++ ".01" else date_str
  parseYMD date_with_day

/-- Splitting a character list at every occurrence of `sep`, as Rust
`str::split(char)`: always returns at least one (possibly empty) part. -/
def splitChar (sep : Char) : List Char → List (List Char)
  | [] => [[]]
  | c :: rest =>
    if c = sep then [] :: splitChar sep rest
    else
      match splitChar sep rest with
      | p :: ps => (c :: p) :: ps
      | [] => [[c]]

/-- `fn parse_date_range` (src/main.rs lines 242-249): splits on a dash and
parses both sides, each failure becoming `none`.  The source indexes
`dates[1]` unconditionally, so an input with no dash makes the index
out of bounds and the function panics: that panic is modelled as the
outer `none`. -/
def parse_date_range (date_range : String) :
    Option (Except String (Option NaiveDate × Option NaiveDate)) :=
  match splitChar '-' date_range.data with
  | d0 :: d1 :: _ =>
    some (.ok ((parse_date (String.mk d0)).toOption, (parse_date (String.mk d1)).toOption))
  | _ => none

/-- Rust `<f64 as FromStr>::from_str` on the finite-literal grammar:
optional sign, integer digits and/or a dot with fraction digits, optional
exponent.  The value is represented exactly as a rational; the `inf`,
`infinity` and `nan` literals and round-to-nearest are not modelled (no
input of this program produces them, and no verified property depends on
rounding). -/
def parseF64 (s : String) : Except String Rat :=
  let cs := s.data
  let signAndRest : Rat × List Char :=
    match cs with
    | c :: rest => if c = '+' then (1, rest) else if c = '-' then (-1, rest) else (1, cs)
    | [] => (1, [])
  let intPart := signAndRest.2.span Char.isDigit
  let fracPart : List Char × List Char :=
    match intPart.2 with
    | '.' :: rest => rest.span Char.isDigit
    | _ => ([], intPart.2)
  if intPart.1.isEmpty && fracPart.1.isEmpty then .error "invalid float literal"
  else
    let mantissa : Rat :=
      (natFromDigits intPart.1 : Rat) + (natFromDigits fracPart.1 : Rat) / (10 : Rat) ^ fracPart.1.length
    match fracPart.2 with
    | [] => .ok (signAndRest.1 * mantissa)
    | e :: rest =>
      if e = 'e' ∨ e = 'E' then
        let expSignAndRest : Int × List Char :=
          match rest with
          | c :: r2 => if c = '+' then (1, r2) else if c = '-' then (-1, r2) else (1, rest)
          | [] => (1, [])
        let expPart := expSignAndRest.2.span Char.isDigit
        if expPart.1.isEmpty then .error "invalid float literal"
        else if expPart.2.isEmpty then
          .ok (signAndRest.1 * mantissa * (10 : Rat) ^ (expSignAndRest.1 * (natFromDigits expPart.1 : Int)))
        else .error "invalid float literal"
      else .error "invalid float literal"

/-- Rust `str::replace("kWh", "")`: delete every (leftmost, non-overlapping)
occurrence of the three-character pattern. -/
def stripKWh : List Char → List Char
  | 'k' :: 'W' :: 'h' :: rest => stripKWh rest
  | c :: rest => c :: stripKWh rest
  | [] => []

/-- `fn parse_use_kwh` (src/main.rs lines 252-257): remove commas, remove
the unit suffix, parse as `f64`. -/
def parse_use_kwh (kwh_str : String) : Except String Rat :=
  parseF64 (String.mk (stripKWh (kwh_str.data.filter (fun c => c ≠ ','))))

/-- Rust `<i64 as FromStr>::from_str`: optional sign, at least one digit,
all characters digits, value within the signed 64-bit range.  (Checked
accumulation in the source overflows exactly when the final value is out
of range, so a range check on the value is equivalent.) -/
def parseI64 (s : String) : Except String Int :=
  let cs := s.data
  let signAndDigits : Int × List Char :=
    match cs with
    | c :: rest => if c = '+' then (1, rest) else if c = '-' then (-1, rest) else (1, cs)
    | [] => (1, [])
  if signAndDigits.2.isEmpty then .error "cannot parse integer from empty string"
  else if signAndDigits.2.all Char.isDigit then
    let v : Int := signAndDigits.1 * (natFromDigits signAndDigits.2 : Int)
    if -(2 ^ 63) ≤ v ∧ v ≤ 2 ^ 63 - 1 then .ok v
    else .error "number too large to fit in target type"
  else .error "invalid digit found in string"

/-- `fn parse_amount` (src/main.rs lines 260-265): take the segment before
the first currency glyph (`split('원').next()`, which always yields the
leading segment), delete every comma and every dot, and parse the rest as
`i64`. -/
def parse_amount (amount_str : String) : Except String Int :=
  let amount_part := amount_str.data.takeWhile (fun c => c ≠ '원')
  parseI64 (String.mk ((amount_part.filter (fun c => c ≠ ',')).filter (fun c => c ≠ '.')))

/-- `fn parse_payment_method` (src/main.rs lines 268-287): split on `/`;
the first part (non-empty) is the method label, the second part, when
present, is parsed as a date with failures mapped to `none`.  The function
itself always returns `Ok`. -/
def parse_payment_method (payment_str : String) :
    Except String (Option String × Option NaiveDate) :=
  let parts := splitChar '/' payment_str.data
  let method : Option String :=
    match parts with
    | p0 :: _ => if p0.isEmpty then none else some (String.mk p0)
    | [] => none
  let date : Option NaiveDate :=
    match parts with
    | _ :: p1 :: _ => (parse_date (String.mk p1)).toOption
    | _ => none
  .ok (method, date)

/-- Result of one navigator action: the returned `Result`, plus whether
the driver action (click / send_keys) was actually invoked. -/
structure ActOutcome where
  result : Except String Unit
  performed : Bool
  deriving DecidableEq

/-- `fn click_element` (src/main.rs lines 52-64).  `found` is the outcome
of `client.find(locator)`; `clickRes` the outcome of `element.click()`.
When the element is missing the error is logged AND an `Err` is returned
(a hard failure); a click failure is propagated with context. -/
def click_element {α : Type} (found : Option α) (clickRes : α → Except String Unit) :
    ActOutcome :=
  match found with
  | some e =>
    match clickRes e with
    | .ok _ => ⟨.ok (), true⟩
    | .error msg => ⟨.error msg, true⟩
  | none => ⟨.error "Failed to find the element", false⟩

/-- `fn enter_value_in_element` (src/main.rs lines 67-78).  A missing
element is only logged and the function returns `Ok(())` without invoking
the driver; a `send_keys` failure is likewise only logged. -/
def enter_value_in_element {α : Type} (found : Option α) (sendRes : α → Except String Unit) :
    ActOutcome :=
  match found with
  | some e =>
    match sendRes e with
    | .ok _ => ⟨.ok (), true⟩
    | .error _ => ⟨.ok (), true⟩
  | none => ⟨.ok (), false⟩

/-- `fn wait_for_element` (src/main.rs lines 29-49): a missing element is
fatal, the session and the driver process are torn down and an `Err` is
returned; otherwise the element is returned wrapped in `Some`. -/
def wait_for_element {α : Type} (found : Option α) : Except String (Option α) :=
  match found with
  | some e => .ok (some e)
  | none => .error "Failed to find the element"

/-- `Option<Result>::transpose`. -/
def optTranspose {α : Type} (o : Option (Except String α)) : Except String (Option α) :=
  match o with
  | none => .ok none
  | some (.ok a) => .ok (some a)
  | some (.error e) => .error e

/-- `fn extract_data_year` (src/main.rs lines 315-403) with the seven DOM
reads (`get_text_by_locator`, which yields `Option<String>`) supplied as
inputs.  The outer `Option` models a panic escaping the function (only
`parse_date_range` can panic); `some (.error e)` models an early `Err`
return via `?`.  The steps run in source order: claim date first, then the
usage window, then the numeric fields, then the payment field. -/
def extract_data_year (claim_date_row date_range_row usage_row amount_row paid_row
    unpaid_row payment_option_row : Option String) : Option (Except String KepcoData) :=
  match optTranspose (claim_date_row.map parse_date) with
  | .error e => some (.error e)
  | .ok claim_date =>
    let rangeStep : Option (Except String (Option NaiveDate × Option NaiveDate)) :=
      match date_range_row with
      | none => some (.ok (none, none))
      | some s => parse_date_range s
    match rangeStep with
    | none => none
    | some (.error e) => some (.error e)
    | some (.ok (start_date, end_date)) =>
      some (do
        let usage ← match usage_row with
          | none => Except.ok (0 : Rat)
          | some s => parse_use_kwh s
        let amount ← match amount_row with
          | none => Except.ok (0 : Int)
          | some s => parse_amount s
        let paid ← match paid_row with
          | none => Except.ok (0 : Int)
          | some s => parse_amount s
        let unpaid ← match unpaid_row with
          | none => Except.ok (0 : Int)
          | some s => parse_amount s
        let pm ← match payment_option_row with
          | none => Except.ok ((none : Option String), (none : Option NaiveDate))
          | some s => parse_payment_method s
        Except.ok { claim_date := claim_date, start_date := start_date, end_date := end_date,
                    usage := usage, amount := amount, paid := paid, unpaid := unpaid,
                    payment_method := pm.1, payment_date := pm.2 })

/-- `fn extract_data_month` (src/main.rs lines 434-507): as the yearly
variant but with no usage window, the payment method taken as raw text and
no payment date.  No step can panic. -/
def extract_data_month (claim_date_row usage_row amount_row paid_row unpaid_row
    payment_method_row : Option String) : Except String KepcoData :=
  match optTranspose (claim_date_row.map parse_date) with
  | .error e => .error e
  | .ok claim_date => do
    let usage ← match usage_row with
      | none => Except.ok (0 : Rat)
      | some s => parse_use_kwh s
    let amount ← match amount_row with
      | none => Except.ok (0 : Int)
      | some s => parse_amount s
    let paid ← match paid_row with
      | none => Except.ok (0 : Int)
      | some s => parse_amount s
    let unpaid ← match unpaid_row with
      | none => Except.ok (0 : Int)
      | some s => parse_amount s
    Except.ok { claim_date := claim_date, start_date := none, end_date := none,
                usage := usage, amount := amount, paid := paid, unpaid := unpaid,
                payment_method := payment_method_row, payment_date := none }

/-- The selection made by the result loop of `parse_data_from_parent_ids`:
only a task that neither panicked nor returned an extraction error
contributes its record. -/
def extractedOk : Option (Except String KepcoData) → Option KepcoData
  | some (Except.ok d) => some d
  | _ => none

/-- `fn parse_data_from_parent_ids` (src/main.rs lines 406-431), with each
spawned task's outcome supplied as one list entry: the outer `Option` is
the task's fate under `tokio::spawn` (`none` = the task panicked and
`join` reported an error), the inner `Except` the extraction result.  Both
failure shapes are only logged; the successful records are collected in
task order and the function itself always returns `Ok`. -/
def parse_data_from_parent_ids (results : List (Option (Except String KepcoData))) :
    Except String (List KepcoData) :=
  Except.ok (results.filterMap extractedOk)

/-- Whether one task outcome carries a successfully extracted record. -/
def isOkExtract (r : Option (Except String KepcoData)) : Bool := (extractedOk r).isSome

/-- Non-strict "newer or equal" on optional claim dates, matching the
`Ord` instances the source sorts with (`Option<NaiveDate>`: `None` is
smallest; dates compare chronologically). -/
def dateLeP (a b : NaiveDate) : Prop :=
  a.year < b.year ∨ (a.year = b.year ∧ (a.month < b.month ∨ (a.month = b.month ∧ a.day ≤ b.day)))

instance (a b : NaiveDate) : Decidable (dateLeP a b) := by
  unfold dateLeP
  infer_instance

/-- `a ≤ b` on `Option<NaiveDate>` as in Rust's derived `Ord`. -/
def optDateLe (a b : Option NaiveDate) : Bool :=
  match a, b with
  | none, _ => true
  | some _, none => false
  | some x, some y => decide (dateLeP x y)

/-- Comparator under which the merged output's first pass is sorted:
`x` before `y` is fine when `y.claim_date ≤ x.claim_date`, i.e. the order
produced by `data_vec.sort_by(|a, b| b.claim_date.cmp(&a.claim_date))`. -/
def descLe (x y : KepcoData) : Bool := optDateLe y.claim_date x.claim_date

/-- Stable insertion of one record into a descending-sorted list. -/
def insertDesc (x : KepcoData) : List KepcoData → List KepcoData
  | [] => [x]
  | y :: ys => if descLe x y then x :: y :: ys else y :: insertDesc x ys

/-- `data_vec.sort_by(|a, b| b.claim_date.cmp(&a.claim_date))` (src/main.rs
line 742).  Rust's `sort_by` is a stable sort and `descLe` is a total
preorder, so the stable insertion sort below produces the identical list. -/
def sortDescByClaim : List KepcoData → List KepcoData
  | [] => []
  | x :: xs => insertDesc x (sortDescByClaim xs)

/-- The reconciliation performed by `main` (src/main.rs lines 741-742 and
786): the first pass is sorted descending by claim date, then the records
of the later passes are appended as they came, with no deduplication and
no further sort. -/
def mergePasses (data_vec additional_data_vec : List KepcoData) : List KepcoData :=
  sortDescByClaim data_vec ++ additional_data_vec

/-- `main`'s data path from the first extraction pass to the emitted list
(src/main.rs lines 741-792), with the task outcomes of the first pass and
the records of the later passes as inputs.  After sorting, `main` reads
`data_vec[data_vec.len() - 1]` to compute the pivot period; on an empty
vector the index underflows and panics, modelled as `none` (no JSON is
emitted and the process exits non-zero). -/
def reconcile_main (pass1 : List (Option (Except String KepcoData)))
    (additional_data_vec : List KepcoData) : Option (List KepcoData) :=
  match parse_data_from_parent_ids pass1 with
  | .error _ => none
  | .ok data_vec =>
    if data_vec.isEmpty then none
    else some (mergePasses data_vec additional_data_vec)

/-- Number of records in `l` carrying the billing period `p`. -/
def countPeriod (l : List KepcoData) (p : Option NaiveDate) : Nat :=
  l.countP (fun r => decide (r.claim_date = p))

/-- Decidable check that a record list is (non-strictly) descending by
claim date. -/
def sortedDescB : List KepcoData → Bool
  | [] => true
  | [_] => true
  | x :: y :: rest => descLe x y && sortedDescB (y :: rest)

/-- A minimal record with a given claim date and billed amount, used for
concrete counterexample inputs. -/
def mkRec (d : Option NaiveDate) (amt : Int) : KepcoData :=
  { claim_date := d, start_date := none, end_date := none, usage := 0, amount := amt,
    paid := 0, unpaid := 0, payment_method := none, payment_date := none }

/-! ### Helper lemmas: ASCII digit characters -/

theorem digit_toNat (c : Char) (h : c.isDigit = true) : 48 ≤ c.toNat ∧ c.toNat ≤ 57 := by
  simp [Char.isDigit] at h
  obtain ⟨h1, h2⟩ := h
  exact ⟨h1, h2⟩

theorem digit_utf8Size (c : Char) (h : c.isDigit = true) : c.utf8Size = 1 := by
  have hb := digit_toNat c h
  have e : c.val ≤ UInt32.ofNatCore 127 Char.utf8Size.proof_1 := by
    rw [UInt32.le_def, BitVec.le_def]
    show c.toNat ≤ (UInt32.ofNatCore 127 Char.utf8Size.proof_1).toBitVec.toNat
    have e2 : (UInt32.ofNatCore 127 Char.utf8Size.proof_1).toBitVec.toNat = 127 := rfl
    omega
  unfold Char.utf8Size
  show (if c.val ≤ UInt32.ofNatCore 127 Char.utf8Size.proof_1 then 1
    else if c.val ≤ UInt32.ofNatCore 2047 Char.utf8Size.proof_2 then 2
    else if c.val ≤ UInt32.ofNatCore 65535 Char.utf8Size.proof_3 then 3 else 4) = 1
  rw [if_pos e]

theorem digit_not_ws (c : Char) (h : c.isDigit = true) : c.isWhitespace = false := by
  have hb := digit_toNat c h
  simp [Char.isWhitespace]
  refine ⟨⟨⟨?_, ?_⟩, ?_⟩, ?_⟩ <;> rintro rfl <;> revert hb <;> decide

theorem digit_ne_dot (c : Char) (h : c.isDigit = true) : c ≠ '.' := by
  have hb := digit_toNat c h
  rintro rfl; revert hb; decide

theorem digit_ne_comma (c : Char) (h : c.isDigit = true) : c ≠ ',' := by
  have hb := digit_toNat c h
  rintro rfl; revert hb; decide

theorem digit_ne_plus (c : Char) (h : c.isDigit = true) : c ≠ '+' := by
  have hb := digit_toNat c h
  rintro rfl; revert hb; decide

theorem digit_ne_minus (c : Char) (h : c.isDigit = true) : c ≠ '-' := by
  have hb := digit_toNat c h
  rintro rfl; revert hb; decide

theorem digit_ne_won (c : Char) (h : c.isDigit = true) : c ≠ '원' := by
  have hb := digit_toNat c h
  rintro rfl; revert hb; decide

theorem digitVal_le (c : Char) (h : c.isDigit = true) : digitVal c ≤ 9 := by
  have hb := digit_toNat c h
  unfold digitVal
  omega

/-! ### Helper lemmas: `splitChar` -/

theorem splitChar_ne_nil (sep : Char) (l : List Char) : splitChar sep l ≠ [] := by
  induction l with
  | nil => simp [splitChar]
  | cons c rest ih =>
    by_cases hc : c = sep
    · simp [splitChar, hc]
    · obtain ⟨p, ps, hps⟩ := List.exists_cons_of_ne_nil ih
      simp [splitChar, hc, hps]

theorem splitChar_no_sep (sep : Char) (l : List Char) (h : sep ∉ l) : splitChar sep l = [l] := by
  induction l with
  | nil => rfl
  | cons c rest ih =>
    simp only [List.mem_cons, not_or] at h
    have hc : ¬ c = sep := fun hcs => h.1 hcs.symm
    simp [splitChar, hc, ih h.2]

theorem splitChar_append (sep : Char) (A B : List Char) (h : sep ∉ A) :
    splitChar sep (A ++ sep :: B) = A :: splitChar sep B := by
  induction A with
  | nil => simp [splitChar]
  | cons c rest ih =>
    simp only [List.mem_cons, not_or] at h
    have hc : ¬ c = sep := fun hcs => h.1 hcs.symm
    simp [splitChar, hc, ih h.2]

theorem two_le_splitChar_length_iff (sep : Char) (l : List Char) :
    2 ≤ (splitChar sep l).length ↔ sep ∈ l := by
  induction l with
  | nil => simp [splitChar]
  | cons c rest ih =>
    by_cases hc : c = sep
    · subst hc
      have h1 : 1 ≤ (splitChar c rest).length :=
        List.length_pos.mpr (splitChar_ne_nil c rest)
      simp [splitChar]
      omega
    · obtain ⟨p, ps, hps⟩ := List.exists_cons_of_ne_nil (splitChar_ne_nil sep rest)
      have : (splitChar sep (c :: rest)).length = 1 + ps.length := by
        simp [splitChar, hc, hps]
        omega
      rw [hps] at ih
      simp only [List.length_cons] at ih
      rw [List.mem_cons]
      constructor
      · intro hlen
        right
        exact ih.mp (by omega)
      · intro hm
        rcases hm with hm | hm
        · exact absurd hm.symm hc
        · have := ih.mpr hm
          omega

/-! ### Helper lemmas: generic list facts -/

theorem takeWhile_append_stop {α : Type} (p : α → Bool) (l : List α) (x : α) (tail : List α)
    (hl : ∀ c ∈ l, p c = true) (hx : p x = false) :
    (l ++ x :: tail).takeWhile p = l := by
  induction l with
  | nil => simp [List.takeWhile, hx]
  | cons c rest ih =>
    have hc := hl c (by simp)
    simp only [List.cons_append, List.takeWhile_cons, hc]
    simp [ih (fun d hd => hl d (by simp [hd]))]

theorem length_filterMap_eq_countP {α β : Type} (f : α → Option β) (l : List α) :
    (l.filterMap f).length = l.countP (fun a => (f a).isSome) := by
  induction l with
  | nil => rfl
  | cons c rest ih =>
    cases hc : f c with
    | none => simp [List.filterMap_cons, List.countP_cons, hc, ih]
    | some b => simp [List.filterMap_cons, List.countP_cons, hc, ih]

theorem countP_add_countP_not {α : Type} (p : α → Bool) (l : List α) :
    l.countP p + l.countP (fun a => !p a) = l.length := by
  induction l with
  | nil => rfl
  | cons c rest ih =>
    by_cases h : p c = true
    · simp [List.countP_cons, h]
      omega
    · have h' : p c = false := by simpa using h
      simp [List.countP_cons, h']
      omega

/-! ### Helper lemmas: the descending stable sort -/

theorem optDateLe_total (a b : Option NaiveDate) :
    optDateLe a b = true ∨ optDateLe b a = true := by
  rcases a with _ | da <;> rcases b with _ | db <;> simp [optDateLe, dateLeP]
  omega

theorem optDateLe_trans (a b c : Option NaiveDate) (h1 : optDateLe a b = true)
    (h2 : optDateLe b c = true) : optDateLe a c = true := by
  rcases a with _ | da <;> rcases b with _ | db <;> rcases c with _ | dc <;>
    simp_all [optDateLe, dateLeP]
  all_goals omega

theorem descLe_total (x y : KepcoData) : descLe x y = true ∨ descLe y x = true := by
  unfold descLe
  exact optDateLe_total y.claim_date x.claim_date

theorem descLe_trans (x y z : KepcoData) (h1 : descLe x y = true) (h2 : descLe y z = true) :
    descLe x z = true := by
  unfold descLe at h1 h2 ⊢
  exact optDateLe_trans z.claim_date y.claim_date x.claim_date h2 h1

theorem insertDesc_perm (x : KepcoData) (l : List KepcoData) :
    (insertDesc x l).Perm (x :: l) := by
  induction l with
  | nil => exact List.Perm.refl _
  | cons y ys ih =>
    by_cases h : descLe x y = true
    · simp [insertDesc, h]
    · simp only [insertDesc]
      rw [if_neg h]
      exact (ih.cons y).trans (List.Perm.swap x y ys)

theorem sortDesc_perm (l : List KepcoData) : (sortDescByClaim l).Perm l := by
  induction l with
  | nil => exact List.Perm.refl _
  | cons x xs ih =>
    exact (insertDesc_perm x (sortDescByClaim xs)).trans (ih.cons x)

theorem sortDesc_length (l : List KepcoData) : (sortDescByClaim l).length = l.length :=
  (sortDesc_perm l).length_eq

theorem sortDesc_countP (l : List KepcoData) (p : KepcoData → Bool) :
    (sortDescByClaim l).countP p = l.countP p :=
  (sortDesc_perm l).countP_eq p

theorem mem_insertDesc (x z : KepcoData) (l : List KepcoData) (h : z ∈ insertDesc x l) :
    z = x ∨ z ∈ l := by
  have := (insertDesc_perm x l).mem_iff.mp h
  simpa using this

theorem insertDesc_pairwise (x : KepcoData) (l : List KepcoData)
    (hl : l.Pairwise (fun a b => descLe a b = true)) :
    (insertDesc x l).Pairwise (fun a b => descLe a b = true) := by
  induction l with
  | nil => simp [insertDesc]
  | cons y ys ih =>
    rw [List.pairwise_cons] at hl
    obtain ⟨hy, hys⟩ := hl
    by_cases h : descLe x y = true
    · simp only [insertDesc, h, if_true]
      rw [List.pairwise_cons]
      constructor
      · intro z hz
        rcases List.mem_cons.mp hz with rfl | hz
        · exact h
        · exact descLe_trans x y z h (hy z hz)
      · rw [List.pairwise_cons]
        exact ⟨hy, hys⟩
    · have hyx : descLe y x = true := by
        rcases descLe_total x y with h' | h'
        · exact absurd h' h
        · exact h'
      simp only [insertDesc]
      rw [if_neg h]
      rw [List.pairwise_cons]
      constructor
      · intro z hz
        rcases mem_insertDesc x z ys hz with rfl | hz
        · exact hyx
        · exact hy z hz
      · exact ih hys

theorem sortDesc_pairwise (l : List KepcoData) :
    (sortDescByClaim l).Pairwise (fun a b => descLe a b = true) := by
  induction l with
  | nil => simp [sortDescByClaim]
  | cons x xs ih => exact insertDesc_pairwise x (sortDescByClaim xs) ih

/-! ### Claim C1: uniqueness of `period` in the merged output -/

/-- C1 counterexample: the merge step performs no deduplication.  With
pass 1 holding one record for 2023-05 and pass 2 holding another record
for the same period, the merged dataset contains two records for that
period, not exactly one. -/
theorem c1_counterexample :
    countPeriod
      (mergePasses [mkRec (some ⟨2023, 5, 1⟩) 45000] [mkRec (some ⟨2023, 5, 1⟩) 38500])
      (some ⟨2023, 5, 1⟩) = 2 := by decide

/-- C1 (amended): the merged dataset keeps every record of both passes:
for any period, the number of merged records carrying it is the sum of the
per-pass counts — in particular a period present in both passes appears
twice, so `period` is not a unique key of the output. -/
theorem c1_amended_counts (pass1 pass2 : List KepcoData) (p : Option NaiveDate) :
    countPeriod (mergePasses pass1 pass2) p = countPeriod pass1 p + countPeriod pass2 p := by
  unfold countPeriod mergePasses
  rw [List.countP_append, sortDesc_countP]

/-! ### Claim C2: ordering of the merged output -/

/-- C2 counterexample: only the first pass is sorted; the later passes are
appended afterwards without a re-sort, so when a pass-2 record has a newer
period than a pass-1 record, the final list is not descending. -/
theorem c2_counterexample :
    sortedDescB
      (mergePasses [mkRec (some ⟨2023, 5, 1⟩) 45000] [mkRec (some ⟨2023, 6, 1⟩) 38500]) =
      false := by decide

/-- C2 (amended): the emitted list is the pass-1 records sorted
(non-strictly) descending by period, followed by the later-pass records
exactly as they were gathered; the list as a whole is not re-sorted. -/
theorem c2_amended_shape (pass1 pass2 : List KepcoData) :
    ((mergePasses pass1 pass2).take pass1.length).Pairwise (fun a b => descLe a b = true)
    ∧ (mergePasses pass1 pass2).drop pass1.length = pass2 := by
  have hlen : (sortDescByClaim pass1).length = pass1.length := sortDesc_length pass1
  constructor
  · unfold mergePasses
    rw [← hlen, List.take_left]
    exact sortDesc_pairwise pass1
  · unfold mergePasses
    rw [← hlen, List.drop_left]

/-! ### Claim C3: partial-failure tolerance of the concurrent pass -/

/-- C3 counterexample: with N = 1 identifier whose extraction fails with a
parse error, the collected vector is empty and `main` panics at
`data_vec[data_vec.len() - 1]` (src/main.rs line 744): no JSON is emitted
and the exit code is non-zero, contradicting the claim at N = 1.
(`"garbage"` is 7 bytes long, gets `".01"` appended and fails to parse.) -/
theorem c3_counterexample :
    reconcile_main [extract_data_year (some "garbage") none none none none none none] [] =
      none := by decide

/-- C3 (amended): for every first-pass task-outcome list with at least two
identifiers of which exactly one fails, the run proceeds: the merged
output exists, contains exactly the N - 1 successfully extracted records
(plus the later-pass records), and every sibling's record survives. -/
theorem c3_amended_partial_failure (results : List (Option (Except String KepcoData)))
    (additional : List KepcoData)
    (hfail : results.countP (fun r => !isOkExtract r) = 1)
    (hN : 2 ≤ results.length) :
    ∃ out, reconcile_main results additional = some out
      ∧ out.length = (results.length - 1) + additional.length
      ∧ ∀ d : KepcoData, some (Except.ok d) ∈ results → d ∈ out := by
  have hlen : (results.filterMap extractedOk).length =
      results.countP (fun r => isOkExtract r) :=
    length_filterMap_eq_countP extractedOk results
  have hsplit : results.countP (fun r => isOkExtract r) +
      results.countP (fun r => !isOkExtract r) = results.length :=
    countP_add_countP_not isOkExtract results
  have hpos : 1 ≤ (results.filterMap extractedOk).length := by omega
  have hne : results.filterMap extractedOk ≠ [] := by
    intro hnil
    rw [hnil] at hpos
    simp at hpos
  have hemp : (results.filterMap extractedOk).isEmpty = false := by
    cases hcase : results.filterMap extractedOk with
    | nil => exact absurd hcase hne
    | cons a as => rfl
  refine ⟨mergePasses (results.filterMap extractedOk) additional, ?_, ?_, ?_⟩
  · unfold reconcile_main parse_data_from_parent_ids
    simp [hemp]
  · unfold mergePasses
    rw [List.length_append, sortDesc_length]
    omega
  · intro d hd
    have hmem : d ∈ results.filterMap extractedOk :=
      List.mem_filterMap.mpr ⟨some (Except.ok d), hd, rfl⟩
    unfold mergePasses
    exact List.mem_append_left _ ((sortDesc_perm _).mem_iff.mpr hmem)

/-- C3 witness: the amended statement applied at a concrete two-task pass
(one successful record, one parse failure) with an empty later pass. -/
theorem c3_amended_partial_failure_witness :
    ∃ out, reconcile_main
        [some (Except.ok (mkRec (some ⟨2023, 5, 1⟩) 45000)),
          some (Except.error "parse failure")] [] = some out
      ∧ out.length = 1
      ∧ ∀ d : KepcoData, some (Except.ok d) ∈
          [some (Except.ok (mkRec (some ⟨2023, 5, 1⟩) 45000)),
            some (Except.error "parse failure")] →
        d ∈ out :=
  c3_amended_partial_failure _ _ (by decide) (by decide)

/-! ### Claim C4: soft failure of act on a missing element -/

/-- C4 counterexample: clicking a missing element does not return success:
`click_element` returns an `Err` when `find` yields nothing, so the
claimed soft-failure behavior does not hold for the click action. -/
theorem c4_counterexample :
    (click_element (none : Option Unit) (fun _ => Except.ok ())).result.isOk = false := rfl

/-- C4 (amended): the soft-failure asymmetry holds only for text entry:
`enter_value_in_element` on a missing element returns success and performs
no driver action (and even a failing `send_keys` is swallowed), while
`click_element` on a missing element returns an error (performing
nothing), and `wait_for_element` on a missing element is fatal. -/
theorem c4_amended_asymmetry {α : Type} (sendRes clickRes : α → Except String Unit) :
    enter_value_in_element (none : Option α) sendRes = ⟨Except.ok (), false⟩
    ∧ (∀ e : α, (enter_value_in_element (some e) sendRes).result = Except.ok ())
    ∧ (∃ msg, click_element (none : Option α) clickRes = ⟨Except.error msg, false⟩)
    ∧ (∃ msg, wait_for_element (none : Option α) = Except.error msg) := by
  refine ⟨rfl, ?_, ⟨"Failed to find the element", rfl⟩, ⟨"Failed to find the element", rfl⟩⟩
  intro e
  cases h : sendRes e <;> simp [enter_value_in_element, h]

/-! ### Claim C5: zero defaults for numeric fields -/

/-- C5 counterexample: a present-but-unparseable usage text does not
default to zero — record construction fails (the `?` operator propagates
the parse error), so the record is dropped instead of being built with a
zero field. -/
theorem c5_counterexample :
    isOkExtract (extract_data_year none none (some "abc") none none none none) = false := by
  decide

/-- C5 (amended): numeric fields default to zero only when the source
text is absent (construction then succeeds); when the text is present but
unparseable, construction of the record fails with the parse error, for
both the yearly and the monthly extractor. -/
theorem c5_amended_defaults :
    (extract_data_year none none none none none none none = some (Except.ok (mkRec none 0)))
    ∧ (extract_data_month none none none none none none = Except.ok (mkRec none 0))
    ∧ (∀ s, (parse_use_kwh s).isOk = false →
        isOkExtract (extract_data_year none none (some s) none none none none) = false)
    ∧ (∀ s, (parse_amount s).isOk = false →
        isOkExtract (extract_data_year none none none (some s) none none none) = false)
    ∧ (∀ s, (parse_amount s).isOk = false →
        isOkExtract (extract_data_year none none none none (some s) none none) = false)
    ∧ (∀ s, (parse_amount s).isOk = false →
        isOkExtract (extract_data_year none none none none none (some s) none) = false)
    ∧ (∀ s, (parse_use_kwh s).isOk = false →
        (extract_data_month none (some s) none none none none).isOk = false)
    ∧ (∀ s, (parse_amount s).isOk = false →
        (extract_data_month none none (some s) none none none).isOk = false) := by
  refine ⟨by decide, by decide, ?_, ?_, ?_, ?_, ?_, ?_⟩ <;> intro s h
  · cases hp : parse_use_kwh s with
    | ok v => rw [hp] at h; simp [Except.isOk, Except.toBool] at h
    | error e =>
      simp only [extract_data_year, hp]
      rfl
  · cases hp : parse_amount s with
    | ok v => rw [hp] at h; simp [Except.isOk, Except.toBool] at h
    | error e =>
      simp only [extract_data_year, hp]
      rfl
  · cases hp : parse_amount s with
    | ok v => rw [hp] at h; simp [Except.isOk, Except.toBool] at h
    | error e =>
      simp only [extract_data_year, hp]
      rfl
  · cases hp : parse_amount s with
    | ok v => rw [hp] at h; simp [Except.isOk, Except.toBool] at h
    | error e =>
      simp only [extract_data_year, hp]
      rfl
  · cases hp : parse_use_kwh s with
    | ok v => rw [hp] at h; simp [Except.isOk, Except.toBool] at h
    | error e =>
      simp only [extract_data_month, hp]
      rfl
  · cases hp : parse_amount s with
    | ok v => rw [hp] at h; simp [Except.isOk, Except.toBool] at h
    | error e =>
      simp only [extract_data_month, hp]
      rfl

/-- C5 witness: the amended statement applied at the concrete unparseable
texts `"abc"` (usage) and `"xy"` (billed amount). -/
theorem c5_amended_defaults_witness :
    ((parse_use_kwh "abc").isOk = false
      ∧ isOkExtract (extract_data_year none none (some "abc") none none none none) = false)
    ∧ ((parse_amount "xy").isOk = false
      ∧ isOkExtract (extract_data_year none none none (some "xy") none none none) = false) :=
  ⟨⟨by decide, c5_amended_defaults.2.2.1 "abc" (by decide)⟩,
   ⟨by decide, c5_amended_defaults.2.2.2.1 "xy" (by decide)⟩⟩

/-! ### Claim C9: the combined payment field -/

/-- C9 (confirmed): for a combined payment string built as `A/B` (with the
parts themselves free of the separator), the method is `A` when non-empty
and absent when empty, the date is `parse_date B` when it parses and
absent otherwise; with no separator the date is absent; and the parser
never fails, whatever the input. -/
theorem c9_payment_split :
    (∀ A B : List Char, '/' ∉ A → '/' ∉ B →
      parse_payment_method (String.mk (A ++ '/' :: B)) =
        Except.ok ((if A.isEmpty then none else some (String.mk A)),
          (parse_date (String.mk B)).toOption))
    ∧ (∀ A : List Char, '/' ∉ A →
      parse_payment_method (String.mk A) =
        Except.ok ((if A.isEmpty then none else some (String.mk A)), none))
    ∧ (∀ s : String, (parse_payment_method s).isOk = true) := by
  refine ⟨?_, ?_, ?_⟩
  · intro A B hA hB
    simp [parse_payment_method, splitChar_append '/' A B hA, splitChar_no_sep '/' B hB]
  · intro A hA
    simp [parse_payment_method, splitChar_no_sep '/' A hA]
  · intro s
    rfl

/-- C9 witness: the split behavior at a concrete payment string with both
parts, and at one with no separator. -/
theorem c9_payment_split_witness :
    parse_payment_method "자동이체/2023.05.21" =
      Except.ok (some "자동이체", some ⟨2023, 5, 21⟩)
    ∧ parse_payment_method "nodate" = Except.ok (some "nodate", none) := by
  constructor
  · have h := c9_payment_split.1 "자동이체".data "2023.05.21".data (by decide) (by decide)
    have e1 : String.mk ("자동이체".data ++ '/' :: "2023.05.21".data) = "자동이체/2023.05.21" := by
      decide
    rw [e1] at h
    rw [h]
    decide
  · have h := c9_payment_split.2.1 "nodate".data (by decide)
    have e1 : String.mk "nodate".data = "nodate" := by decide
    rw [e1] at h
    rw [h]
    decide

/-! ### Claim C10: the usage-window range parser panics without a dash -/

/-- C10 (confirmed): `parse_date_range` returns a value exactly when the
input contains a dash; with no dash the unchecked `dates[1]` index is out
of bounds and the function panics (modelled as `none`) instead of
returning an error or absent dates. -/
theorem c10_range_totality (s : String) :
    ('-' ∈ s.data → ∃ r, parse_date_range s = some r)
    ∧ ('-' ∉ s.data → parse_date_range s = none) := by
  constructor
  · intro hm
    have h2 : 2 ≤ (splitChar '-' s.data).length :=
      (two_le_splitChar_length_iff '-' s.data).mpr hm
    unfold parse_date_range
    rcases hds : splitChar '-' s.data with _ | ⟨d0, _ | ⟨d1, rest⟩⟩
    · rw [hds] at h2; simp at h2
    · rw [hds] at h2; simp at h2
    · exact ⟨_, rfl⟩
  · intro hm
    unfold parse_date_range
    rw [splitChar_no_sep '-' s.data hm]

/-- C10 witness: a dashed range parses to a value; an input with no dash
panics. -/
theorem c10_range_totality_witness :
    (∃ r, parse_date_range "2023.04.01-2023.04.30" = some r)
    ∧ parse_date_range "20230401" = none := by
  constructor
  · exact (c10_range_totality "2023.04.01-2023.04.30").1 (by decide)
  · exact (c10_range_totality "20230401").2 (by decide)

/-! ### Claims C6, C7, C8: the date and amount parsers -/

/-- Evaluation of the embedded chrono parser on a fully symbolic
`YYYY.MM.DD` digit token: it yields exactly the date spelled by the
digits, provided month and day are in range. -/
theorem parseYMD_digits (y1 y2 y3 y4 m1 m2 d1 d2 : Char)
    (hy1 : y1.isDigit = true) (hy2 : y2.isDigit = true) (hy3 : y3.isDigit = true)
    (hy4 : y4.isDigit = true) (hm1 : m1.isDigit = true) (hm2 : m2.isDigit = true)
    (hd1 : d1.isDigit = true) (hd2 : d2.isDigit = true)
    (hmlo : 1 ≤ 10 * digitVal m1 + digitVal m2) (hmhi : 10 * digitVal m1 + digitVal m2 ≤ 12)
    (hdlo : 1 ≤ 10 * digitVal d1 + digitVal d2)
    (hdhi : 10 * digitVal d1 + digitVal d2 ≤
      daysInMonth (natFromDigits [y1, y2, y3, y4] : Int) (10 * digitVal m1 + digitVal m2)) :
    parseYMD (String.mk [y1, y2, y3, y4, '.', m1, m2, '.', d1, d2]) =
      Except.ok ⟨(natFromDigits [y1, y2, y3, y4] : Int), 10 * digitVal m1 + digitVal m2,
        10 * digitVal d1 + digitVal d2⟩ := by
  have ha := digitVal_le y1 hy1
  have hb := digitVal_le y2 hy2
  have hc := digitVal_le y3 hy3
  have hd := digitVal_le y4 hy4
  have hY9999 : natFromDigits [y1, y2, y3, y4] ≤ 9999 := by
    simp [natFromDigits, List.foldl]
    omega
  unfold parseYMD
  simp only [List.dropWhile_cons, digit_not_ws y1 hy1, digit_not_ws m1 hm1,
    digit_not_ws d1 hd1, Bool.false_eq_true, if_false, scanNumber, scanNumAux,
    hy1, hy2, hy3, hy4, hm1, hm2, hd1, hd2, if_true, List.isEmpty_nil]
  have eY : ((digitVal y1 * 10 + digitVal y2) * 10 + digitVal y3) * 10 + digitVal y4 =
      natFromDigits [y1, y2, y3, y4] := by
    simp [natFromDigits, List.foldl]
  have em : digitVal m1 * 10 + digitVal m2 = 10 * digitVal m1 + digitVal m2 := by ring
  have ed : digitVal d1 * 10 + digitVal d2 = 10 * digitVal d1 + digitVal d2 := by ring
  rw [fromYMD, if_pos]
  · simp only [Except.ok.injEq, NaiveDate.mk.injEq]
    refine ⟨?_, ?_, ?_⟩
    · rw [eY]
    · exact em
    · exact ed
  · refine ⟨?_, ?_, ?_, ?_, ?_, ?_⟩
    · omega
    · rw [eY]
      omega
    · omega
    · omega
    · omega
    · rw [eY, em, ed]
      exact hdhi


/-- Every month has at least one day. -/
theorem one_le_daysInMonth (y : Int) (m : Nat) : 1 ≤ daysInMonth y m := by
  unfold daysInMonth
  split_ifs <;> omega

/-- `parse_date` on a symbolic 7-byte `YYYY.MM` token: the token gets
`".01"` appended, so the result is the first day of that month. -/
theorem parse_date_trunc_eq (y1 y2 y3 y4 m1 m2 : Char)
    (hy1 : y1.isDigit = true) (hy2 : y2.isDigit = true) (hy3 : y3.isDigit = true)
    (hy4 : y4.isDigit = true) (hm1 : m1.isDigit = true) (hm2 : m2.isDigit = true)
    (hmlo : 1 ≤ 10 * digitVal m1 + digitVal m2) (hmhi : 10 * digitVal m1 + digitVal m2 ≤ 12) :
    parse_date (String.mk [y1, y2, y3, y4, '.', m1, m2]) =
      Except.ok ⟨(natFromDigits [y1, y2, y3, y4] : Int), 10 * digitVal m1 + digitVal m2, 1⟩ := by
  have edot : ('.' : Char).utf8Size = 1 := rfl
  have hlen : utf8Len (String.mk [y1, y2, y3, y4, '.', m1, m2]) = 7 := by
    simp [utf8Len, List.foldl, digit_utf8Size _ hy1, digit_utf8Size _ hy2,
      digit_utf8Size _ hy3, digit_utf8Size _ hy4, digit_utf8Size _ hm1,
      digit_utf8Size _ hm2, edot]
  unfold parse_date
  rw [if_pos hlen]
  rw [show String.mk [y1, y2, y3, y4, '.', m1, m2] ++ ".01" =
    String.mk [y1, y2, y3, y4, '.', m1, m2, '.', '0', '1'] from rfl]
  exact parseYMD_digits y1 y2 y3 y4 m1 m2 '0' '1' hy1 hy2 hy3 hy4 hm1 hm2 (by decide)
    (by decide) hmlo hmhi (by decide) (one_le_daysInMonth _ _)

/-- `parse_date` on a symbolic 10-byte `YYYY.MM.DD` token parses to the
stated date (the token is not 7 bytes, so nothing is appended). -/
theorem parse_date_full_eq (y1 y2 y3 y4 m1 m2 d1 d2 : Char)
    (hy1 : y1.isDigit = true) (hy2 : y2.isDigit = true) (hy3 : y3.isDigit = true)
    (hy4 : y4.isDigit = true) (hm1 : m1.isDigit = true) (hm2 : m2.isDigit = true)
    (hd1 : d1.isDigit = true) (hd2 : d2.isDigit = true)
    (hmlo : 1 ≤ 10 * digitVal m1 + digitVal m2) (hmhi : 10 * digitVal m1 + digitVal m2 ≤ 12)
    (hdlo : 1 ≤ 10 * digitVal d1 + digitVal d2)
    (hdhi : 10 * digitVal d1 + digitVal d2 ≤
      daysInMonth (natFromDigits [y1, y2, y3, y4] : Int) (10 * digitVal m1 + digitVal m2)) :
    parse_date (String.mk [y1, y2, y3, y4, '.', m1, m2, '.', d1, d2]) =
      Except.ok ⟨(natFromDigits [y1, y2, y3, y4] : Int), 10 * digitVal m1 + digitVal m2,
        10 * digitVal d1 + digitVal d2⟩ := by
  have edot : ('.' : Char).utf8Size = 1 := rfl
  have hlen : utf8Len (String.mk [y1, y2, y3, y4, '.', m1, m2, '.', d1, d2]) = 10 := by
    simp [utf8Len, List.foldl, digit_utf8Size _ hy1, digit_utf8Size _ hy2,
      digit_utf8Size _ hy3, digit_utf8Size _ hy4, digit_utf8Size _ hm1,
      digit_utf8Size _ hm2, digit_utf8Size _ hd1, digit_utf8Size _ hd2, edot]
  unfold parse_date
  rw [if_neg (by rw [hlen]; omega)]
  exact parseYMD_digits y1 y2 y3 y4 m1 m2 d1 d2 hy1 hy2 hy3 hy4 hm1 hm2 hd1 hd2
    hmlo hmhi hdlo hdhi


/-- C7 (confirmed): every well-formed truncated `YYYY.MM` token (7
characters, digits with a real month) parses to the first day of that
month, and every well-formed full `YYYY.MM.DD` token parses to the stated
date. -/
theorem c7_parse_date_tokens :
    (∀ y1 y2 y3 y4 m1 m2 : Char,
      y1.isDigit = true → y2.isDigit = true → y3.isDigit = true → y4.isDigit = true →
      m1.isDigit = true → m2.isDigit = true →
      1 ≤ 10 * digitVal m1 + digitVal m2 → 10 * digitVal m1 + digitVal m2 ≤ 12 →
      parse_date (String.mk [y1, y2, y3, y4, '.', m1, m2]) =
        Except.ok ⟨(natFromDigits [y1, y2, y3, y4] : Int),
          10 * digitVal m1 + digitVal m2, 1⟩)
    ∧ (∀ y1 y2 y3 y4 m1 m2 d1 d2 : Char,
      y1.isDigit = true → y2.isDigit = true → y3.isDigit = true → y4.isDigit = true →
      m1.isDigit = true → m2.isDigit = true → d1.isDigit = true → d2.isDigit = true →
      1 ≤ 10 * digitVal m1 + digitVal m2 → 10 * digitVal m1 + digitVal m2 ≤ 12 →
      1 ≤ 10 * digitVal d1 + digitVal d2 →
      10 * digitVal d1 + digitVal d2 ≤
        daysInMonth (natFromDigits [y1, y2, y3, y4] : Int) (10 * digitVal m1 + digitVal m2) →
      parse_date (String.mk [y1, y2, y3, y4, '.', m1, m2, '.', d1, d2]) =
        Except.ok ⟨(natFromDigits [y1, y2, y3, y4] : Int), 10 * digitVal m1 + digitVal m2,
          10 * digitVal d1 + digitVal d2⟩) :=
  ⟨fun y1 y2 y3 y4 m1 m2 h1 h2 h3 h4 h5 h6 h7 h8 =>
    parse_date_trunc_eq y1 y2 y3 y4 m1 m2 h1 h2 h3 h4 h5 h6 h7 h8,
   fun y1 y2 y3 y4 m1 m2 d1 d2 h1 h2 h3 h4 h5 h6 h7 h8 h9 h10 h11 h12 =>
    parse_date_full_eq y1 y2 y3 y4 m1 m2 d1 d2 h1 h2 h3 h4 h5 h6 h7 h8 h9 h10 h11 h12⟩

/-- C7 witness: the token theorems applied at `"2023.05"` (truncated)
and `"2019.12.31"` (full). -/
theorem c7_parse_date_tokens_witness :
    parse_date "2023.05" = Except.ok ⟨2023, 5, 1⟩
    ∧ parse_date "2019.12.31" = Except.ok ⟨2019, 12, 31⟩ := by
  constructor
  · have h := c7_parse_date_tokens.1 '2' '0' '2' '3' '0' '5' rfl rfl rfl rfl rfl rfl
      (by decide) (by decide)
    have e1 : String.mk ['2', '0', '2', '3', '.', '0', '5'] = "2023.05" := by decide
    rw [e1] at h
    rw [h]
    decide
  · have h := c7_parse_date_tokens.2 '2' '0' '1' '9' '1' '2' '3' '1' rfl rfl rfl rfl rfl rfl
      rfl rfl (by decide) (by decide) (by decide) (by decide)
    have e1 : String.mk ['2', '0', '1', '9', '.', '1', '2', '.', '3', '1'] = "2019.12.31" := by
      decide
    rw [e1] at h
    rw [h]
    decide

/-- C6 counterexample: the claim says the date parser also accepts the
site-specific `"<year>년 <month>월"` dialect (completed with `"01일"`), but
`parse_date` only knows the `"%Y.%m.%d"` format: both Korean-dialect
renderings fail to parse. -/
theorem c6_counterexample :
    (parse_date "2023년 05월01일").isOk = false ∧ (parse_date "2023년 05월").isOk = false :=
  ⟨by decide, by decide⟩

/-- C6 (amended): `parse_date` accepts only the dot dialect — every
well-formed `YYYY.MM` token parses to a valid date — while Korean-dialect
year-month tokens are rejected; the `"<year>년 <MM>월"` rendering occurs in
the source only as *output* formatting for matching the picker option
text (src/main.rs line 746), never as parser input. -/
theorem c6_amended_dialect :
    (∀ y1 y2 y3 y4 m1 m2 : Char,
      y1.isDigit = true → y2.isDigit = true → y3.isDigit = true → y4.isDigit = true →
      m1.isDigit = true → m2.isDigit = true →
      1 ≤ 10 * digitVal m1 + digitVal m2 → 10 * digitVal m1 + digitVal m2 ≤ 12 →
      (parse_date (String.mk [y1, y2, y3, y4, '.', m1, m2])).isOk = true)
    ∧ (parse_date "2023년 05월01일").isOk = false
    ∧ (parse_date "2023년 05월").isOk = false := by
  refine ⟨?_, by decide, by decide⟩
  intro y1 y2 y3 y4 m1 m2 h1 h2 h3 h4 h5 h6 h7 h8
  rw [parse_date_trunc_eq y1 y2 y3 y4 m1 m2 h1 h2 h3 h4 h5 h6 h7 h8]
  rfl

/-- C6 witness: the amended statement applied at the concrete tokens. -/
theorem c6_amended_dialect_witness :
    (parse_date "2023.05").isOk = true ∧ (parse_date "2023년 05월01일").isOk = false := by
  constructor
  · have h := c6_amended_dialect.1 '2' '0' '2' '3' '0' '5' rfl rfl rfl rfl rfl rfl
      (by decide) (by decide)
    have e1 : String.mk ['2', '0', '2', '3', '.', '0', '5'] = "2023.05" := by decide
    rw [e1] at h
    exact h
  · exact c6_amended_dialect.2.1

/-- Removing commas and then dots from a string of digits, commas and
dots leaves exactly its digits. -/
theorem filter_comma_dot_of_mixed (body : List Char)
    (hall : ∀ c ∈ body, c.isDigit = true ∨ c = ',' ∨ c = '.') :
    (body.filter (fun c => c ≠ ',')).filter (fun c => c ≠ '.') = body.filter Char.isDigit := by
  rw [List.filter_filter]
  apply List.filter_congr
  intro x hx
  rcases hall x hx with hdig | rfl | rfl
  · simp [digit_ne_comma x hdig, digit_ne_dot x hdig, hdig]
  · decide
  · decide

/-- The embedded `i64` parser on a non-empty all-digit string returns
the base-10 value when it fits. -/
theorem parseI64_digits (ds : List Char) (hne : ds ≠ [])
    (hall : ∀ c ∈ ds, c.isDigit = true)
    (hfit : (natFromDigits ds : Int) ≤ 2 ^ 63 - 1) :
    parseI64 (String.mk ds) = Except.ok ((natFromDigits ds : Int)) := by
  obtain ⟨c, rest, rfl⟩ := List.exists_cons_of_ne_nil hne
  have hc := hall c (List.mem_cons_self c rest)
  have hallb : (c :: rest).all Char.isDigit = true := by
    rw [List.all_eq_true]
    intro x hx
    exact hall x hx
  simp only [parseI64]
  rw [if_neg (digit_ne_plus c hc), if_neg (digit_ne_minus c hc)]
  simp only [List.isEmpty_cons, hallb, if_true, Bool.false_eq_true, if_false]
  rw [if_pos (by constructor <;> omega)]
  simp

/-- C8 counterexample: the claim quantifies over every digit string with
separators and glyph, but a digit concatenation beyond the signed 64-bit
range makes the `i64` parse fail instead of returning the integer:
`"9223372036854775808원"` (one past `i64::MAX`) is rejected. -/
theorem c8_counterexample :
    (parse_amount "9223372036854775808원").isOk = false := by decide

/-- C8 (amended): for every currency string of digits, commas and dots
followed by the `원` glyph, provided the digit concatenation fits in a
signed 64-bit integer, parsing returns exactly the integer formed by
concatenating the digits (separators, decimal points and glyph deleted) —
digit concatenation, never rounding. -/
theorem c8_amended_digit_concat (body : List Char)
    (hall : ∀ c ∈ body, c.isDigit = true ∨ c = ',' ∨ c = '.')
    (hne : body.filter Char.isDigit ≠ [])
    (hfit : (natFromDigits (body.filter Char.isDigit) : Int) ≤ 2 ^ 63 - 1) :
    parse_amount (String.mk (body ++ ['원'])) =
      Except.ok ((natFromDigits (body.filter Char.isDigit) : Int)) := by
  have hstop : ∀ c ∈ body, (fun c => decide (c ≠ '원')) c = true := by
    intro c hcmem
    rcases hall c hcmem with hdig | rfl | rfl
    · simp [digit_ne_won c hdig]
    · decide
    · decide
  have htake : (body ++ '원' :: []).takeWhile (fun c => decide (c ≠ '원')) = body :=
    takeWhile_append_stop _ body '원' [] hstop (by decide)
  simp only [parse_amount]
  rw [htake]
  rw [filter_comma_dot_of_mixed body hall]
  exact parseI64_digits _ hne (fun x hx => List.of_mem_filter hx) hfit

/-- C8 witness: the amended statement applied at `"1,234.5원"`, which
parses to `12345` by digit concatenation. -/
theorem c8_amended_digit_concat_witness :
    parse_amount "1,234.5원" = Except.ok 12345 := by
  have h := c8_amended_digit_concat "1,234.5".data (by decide) (by decide) (by decide)
  have e1 : String.mk ("1,234.5".data ++ ['원']) = "1,234.5원" := by decide
  rw [e1] at h
  rw [h]
  decide

end RipHyphen
